import Mathlib

/-!
Verification of the flytekit JSON iterator type transformer
(`flytekit/types/iterator/json_iterator.py`) and of the registry
contract of the surrounding type engine, as a shallow embedding.

Machine values (JSON documents) are modelled by an inductive `JSON`;
the storage collaborator (remote file system reached through
`FlyteFile.new_remote_file` / `ctx.file_access`) is modelled by an
explicit `RemoteStore` state threaded through the stateful operations.
Python exceptions become an `Except TError` result.
-/

namespace Flytekit

/-- JSON values, after the recursive alias
`JSON = dict[str, JSON] | list[JSON] | str | int | float | bool | None`
of `json_iterator.py`.  The transformer treats values opaquely (it only
writes them to and reads them back from a JSON-lines file), so floats
are carried by their textual representation. -/
inductive JSON where
  | obj : List (String × JSON) → JSON
  | arr : List JSON → JSON
  | str : String → JSON
  | int : Int → JSON
  | float : String → JSON
  | bool : Bool → JSON
  | null : JSON

/-- `BlobType.BlobDimensionality` from `flytekit.models.core.types`. -/
inductive BlobDimensionality where
  | SINGLE
  | MULTIPART
deriving DecidableEq, Repr

/-- `BlobType` from `flytekit.models.core.types`: a format tag plus a
dimensionality. -/
structure BlobType where
  format : String
  dimensionality : BlobDimensionality
deriving DecidableEq, Repr

/-- `BlobMetadata` from `flytekit.models.literals`. -/
structure BlobMetadata where
  type : BlobType
deriving DecidableEq, Repr

/-- `Blob` from `flytekit.models.literals`: metadata plus the URI of the
externally stored payload. -/
structure Blob where
  metadata : BlobMetadata
  uri : String
deriving DecidableEq, Repr

/-- Primitive wire values (only the integer field is exercised here). -/
structure Primitive where
  integer : Int
deriving DecidableEq, Repr

/-- `Scalar` from `flytekit.models.literals`: exactly one of its fields
is set, modelled as a tagged variant. -/
inductive Scalar where
  | primitive : Primitive → Scalar
  | blob : Blob → Scalar
deriving DecidableEq, Repr

/-- `Literal` from `flytekit.models.literals`: a scalar, an ordered
collection, or a mapping, as a tagged variant. -/
inductive Literal where
  | scalar : Scalar → Literal
  | collection : List Literal → Literal
  | map : List (String × Literal) → Literal

/-- `SimpleType` from `flytekit.models.types` (the members used here). -/
inductive SimpleType where
  | NONE
  | BOOLEAN
  | INTEGER
  | FLOAT
  | STRING
  | STRUCT
deriving DecidableEq, Repr

/-- `LiteralType` from `flytekit.models.types`: exactly one of the
variant fields (`simple`, `blob`, `collection_type`, ...) is set,
modelled as a tagged variant. -/
inductive LiteralType where
  | simple : SimpleType → LiteralType
  | blob : BlobType → LiteralType
  | collectionType : LiteralType → LiteralType
deriving DecidableEq, Repr

/-- Host-language type annotations, as far as the JSON iterator
transformer distinguishes them: the `JSON` alias itself, the
`Iterator[JSON]` annotation, or any other annotation. -/
inductive PyType where
  | json
  | iteratorJson
  | other : String → PyType
deriving DecidableEq, Repr

/-- The Python exceptions raised by the code under verification. -/
inductive TError where
  | valueError : String → TError
  | typeTransformerFailed : String → TError
  | fileNotFound : String → TError
deriving DecidableEq, Repr

/-- The storage collaborator: remote files keyed by URI, holding the
sequence of JSON documents written to them, plus a counter from which
fresh URIs are minted. -/
structure RemoteStore where
  files : List (String × List JSON)
  counter : Nat

/-- The URI minted for the `n`-th remote file
(`FlyteFile.new_remote_file`). -/
def newRemoteUri (n : Nat) : String :=
  "flyte://remote/" ++ toString n

/-- `FlyteFile.new_remote_file()`: mint a fresh URI and advance the
counter. -/
def newRemoteFile (s : RemoteStore) : String × RemoteStore :=
  (newRemoteUri s.counter, { s with counter := s.counter + 1 })

/-- `JSONIterator` from `json_iterator.py`: a JSON-lines reader plus
the stream of not yet consumed documents.  `closed` records whether
`self._reader.close()` has run. -/
structure JSONIterator where
  remaining : List JSON
  closed : Bool

/-- `JSONIterator.__next__`: yield the next document from the reader;
on `StopIteration` from the underlying reader, close the reader and
signal exhaustion (`none` models the re-raised `StopIteration`). -/
def JSONIterator.next (it : JSONIterator) : JSONIterator × Option JSON :=
  match it.remaining with
  | [] => ({ it with closed := true }, none)
  | x :: xs => ({ it with remaining := xs }, some x)

/-- Drain at most `n` documents from an iterator by repeated
`JSONIterator.next`, collecting the values yielded before exhaustion. -/
def drainN : Nat → JSONIterator → List JSON
  | 0, _ => []
  | n + 1, it =>
    match it.next with
    | (_, none) => []
    | (it2, some x) => x :: drainN n it2

/-- All documents an iterator yields before exhaustion. -/
def JSONIterator.drain (it : JSONIterator) : List JSON :=
  drainN it.remaining.length it

namespace JSONIteratorTransformer

/-- `JSONIteratorTransformer.JSON_ITERATOR_FORMAT`. -/
def JSON_ITERATOR_FORMAT : String := "JSONL"

/-- `JSONIteratorTransformer.get_literal_type`: a Blob literal type of
format `"JSONL"` and `SINGLE` dimensionality, whatever the annotation. -/
def get_literal_type (_t : PyType) : LiteralType :=
  LiteralType.blob { format := JSON_ITERATOR_FORMAT, dimensionality := BlobDimensionality.SINGLE }

/-- `JSONIteratorTransformer.to_literal`: mint a remote file, write
every document of the input iterator to it, then fail with
`ValueError("The iterator is empty.")` when nothing was written, and
otherwise return a scalar Blob literal referencing the file by URI. -/
def to_literal (s : RemoteStore) (python_val : List JSON) :
    RemoteStore × Except TError Literal :=
  let minted := newRemoteFile s
  let s2 : RemoteStore :=
    { minted.2 with files := (minted.1, python_val) :: minted.2.files }
  if python_val.isEmpty then
    (s2, Except.error (TError.valueError "The iterator is empty."))
  else
    (s2, Except.ok (Literal.scalar (Scalar.blob
      { metadata := { type := { format := JSON_ITERATOR_FORMAT,
                                dimensionality := BlobDimensionality.SINGLE } },
        uri := minted.1 })))

/-- `JSONIteratorTransformer.to_python_value`: read `lv.scalar.blob.uri`
(the `AttributeError` on any other literal shape becomes
`TypeTransformerFailedError`), open the file at that URI through the
file-access collaborator, and wrap the reader in a `JSONIterator`. -/
def to_python_value (s : RemoteStore) (lv : Literal) :
    Except TError JSONIterator :=
  match lv with
  | Literal.scalar (Scalar.blob b) =>
    match s.files.lookup b.uri with
    | some content => Except.ok { remaining := content, closed := false }
    | none => Except.error (TError.fileNotFound b.uri)
  | _ => Except.error (TError.typeTransformerFailed "Cannot convert literal to JSON iterator")

/-- `JSONIteratorTransformer.guess_python_type`: return the `JSON` host
type when the literal type is a Blob of `SINGLE` dimensionality and
format `"JSONL"`, and raise `ValueError` otherwise. -/
def guess_python_type (literal_type : LiteralType) : Except TError PyType :=
  match literal_type with
  | LiteralType.blob b =>
    if b.dimensionality = BlobDimensionality.SINGLE ∧ b.format = JSON_ITERATOR_FORMAT then
      Except.ok PyType.json
    else
      Except.error (TError.valueError "Transformer cannot reverse literal type")
  | _ => Except.error (TError.valueError "Transformer cannot reverse literal type")

end JSONIteratorTransformer

/-- Does a literal hold a scalar blob?  (the shape `to_python_value`
accepts). -/
def Literal.holdsScalarBlob : Literal → Bool
  | Literal.scalar (Scalar.blob _) => true
  | _ => false

namespace TypeEngine

/-- Modelled from the spec: `TypeEngine._REGISTRY`
(`flytekit/core/type_engine.py` is not among the sources; only its
callers and tests are).  Per the spec it is a process-wide mapping
keyed by exact host type, holding `(host_type_key, transformer_instance)`
entries, with at most one transformer owning a given exact key. -/
structure Registry where
  entries : List (PyType × Nat)

/-- Modelled from the spec: `TypeEngine.register` publishes an entry
for the transformer's exact host type key; a later registration for
the same key replaces the earlier one (build-then-publish, atomic). -/
def register (r : Registry) (key : PyType) (t : Nat) : Registry :=
  { entries := (key, t) :: r.entries.filter (fun e => e.1 ≠ key) }

/-- Modelled from the spec: step 1 of `resolve` — exact match on the
host type key. -/
def resolveExact (r : Registry) (key : PyType) : Option Nat :=
  r.entries.lookup key

end TypeEngine

/-! ## Helper lemmas -/

/-- Draining `n` steps yields the first `n` not yet consumed documents. -/
theorem drainN_eq_take (n : Nat) (it : JSONIterator) :
    drainN n it = it.remaining.take n := by
  induction n generalizing it with
  | zero => simp [drainN]
  | succ n ih =>
    cases hr : it.remaining with
    | nil => simp [drainN, JSONIterator.next, hr]
    | cons x xs => simp [drainN, JSONIterator.next, hr, ih]

/-- Draining an iterator yields exactly its not yet consumed documents. -/
theorem JSONIterator.drain_eq (it : JSONIterator) : it.drain = it.remaining := by
  simp [JSONIterator.drain, drainN_eq_take]

/-! ## Claims -/

/-- C1: encoding a sequence sourced from an empty iterator fails with
the empty-stream error (realized in the code as
`ValueError("The iterator is empty.")`), and encoding any iterator that
yields at least one element returns a `Literal` without raising. -/
theorem to_literal_empty_stream_rejection (s : RemoteStore) (v : List JSON) :
    ((JSONIteratorTransformer.to_literal s v).2
        = Except.error (TError.valueError "The iterator is empty.") ↔ v = [])
    ∧ ((∃ lv, (JSONIteratorTransformer.to_literal s v).2 = Except.ok lv) ↔ v ≠ []) := by
  cases v with
  | nil => simp [JSONIteratorTransformer.to_literal]
  | cons x xs => simp [JSONIteratorTransformer.to_literal]

/-- C2: decoding the literal produced by encoding a non-empty sequence
of JSON values, through the same storage collaborator, yields an
iterator that produces exactly the input values in the same order. -/
theorem to_literal_roundtrip (s : RemoteStore) (v : List JSON) (h : v ≠ []) :
    ∃ lv it,
      (JSONIteratorTransformer.to_literal s v).2 = Except.ok lv
      ∧ JSONIteratorTransformer.to_python_value
          (JSONIteratorTransformer.to_literal s v).1 lv = Except.ok it
      ∧ it.drain = v := by
  have hne : v.isEmpty = false := by
    cases v with
    | nil => exact absurd rfl h
    | cons x xs => rfl
  refine ⟨Literal.scalar (Scalar.blob
      { metadata := { type := { format := JSONIteratorTransformer.JSON_ITERATOR_FORMAT,
                                dimensionality := BlobDimensionality.SINGLE } },
        uri := newRemoteUri s.counter }),
    { remaining := v, closed := false }, ?_, ?_, JSONIterator.drain_eq _⟩
  · simp [JSONIteratorTransformer.to_literal, newRemoteFile, hne]
  · simp [JSONIteratorTransformer.to_literal, JSONIteratorTransformer.to_python_value,
      newRemoteFile, hne, List.lookup]

/-- C1 witness. -/
theorem to_literal_empty_stream_rejection_wit :
    ((JSONIteratorTransformer.to_literal { files := [], counter := 0 } []).2
        = Except.error (TError.valueError "The iterator is empty.") ↔ ([] : List JSON) = [])
    ∧ ((∃ lv, (JSONIteratorTransformer.to_literal { files := [], counter := 0 } []).2
        = Except.ok lv) ↔ ([] : List JSON) ≠ []) :=
  to_literal_empty_stream_rejection { files := [], counter := 0 } []

/-- C2 witness. -/
theorem to_literal_roundtrip_wit :
    ∃ lv it,
      (JSONIteratorTransformer.to_literal { files := [], counter := 0 } [JSON.int 3]).2
        = Except.ok lv
      ∧ JSONIteratorTransformer.to_python_value
          (JSONIteratorTransformer.to_literal { files := [], counter := 0 } [JSON.int 3]).1 lv
        = Except.ok it
      ∧ it.drain = [JSON.int 3] :=
  to_literal_roundtrip { files := [], counter := 0 } [JSON.int 3] (by simp)

/-- C3: `get_literal_type` is deterministic and value independent: on
any two host type annotations it returns structurally equal wire type
descriptors, namely the constant Blob descriptor of format `"JSONL"`
and `SINGLE` dimensionality; its signature consults no value instance. -/
theorem get_literal_type_deterministic (t1 t2 : PyType) :
    JSONIteratorTransformer.get_literal_type t1 = JSONIteratorTransformer.get_literal_type t2
    ∧ JSONIteratorTransformer.get_literal_type t1
        = LiteralType.blob { format := "JSONL", dimensionality := BlobDimensionality.SINGLE } :=
  ⟨rfl, rfl⟩

/-- C4: `guess_python_type` returns the JSON host type exactly on a
Blob literal type of `SINGLE` dimensionality and format `"JSONL"`, and
fails with an error on every other literal type. -/
theorem guess_python_type_dispatch (lt : LiteralType) :
    (JSONIteratorTransformer.guess_python_type lt = Except.ok PyType.json
      ↔ lt = LiteralType.blob { format := "JSONL", dimensionality := BlobDimensionality.SINGLE })
    ∧ (JSONIteratorTransformer.guess_python_type lt
        = Except.error (TError.valueError "Transformer cannot reverse literal type")
      ↔ lt ≠ LiteralType.blob { format := "JSONL", dimensionality := BlobDimensionality.SINGLE }) := by
  cases lt with
  | simple st => simp [JSONIteratorTransformer.guess_python_type]
  | collectionType t => simp [JSONIteratorTransformer.guess_python_type]
  | blob b =>
    obtain ⟨fmt, dim⟩ := b
    simp only [JSONIteratorTransformer.guess_python_type,
      JSONIteratorTransformer.JSON_ITERATOR_FORMAT]
    split_ifs with hcond
    · obtain ⟨hd, hf⟩ := hcond
      subst hd
      subst hf
      simp
    · constructor
      · simp only [false_iff, reduceCtorEq]
        intro heq
        cases heq
        exact hcond ⟨rfl, rfl⟩
      · simp only [true_iff, Except.error.injEq, TError.valueError.injEq]
        intro heq
        cases heq
        exact hcond ⟨rfl, rfl⟩

/-- C5: `to_python_value` fails with the decode error (realized as
`TypeTransformerFailedError`) on every literal that does not hold a
scalar blob, and returns a `JSONIterator` over the referenced file,
without raising, on every literal holding a scalar blob whose URI the
storage collaborator resolves. -/
theorem to_python_value_shape (s : RemoteStore) (lv : Literal) :
    (lv.holdsScalarBlob = false →
      JSONIteratorTransformer.to_python_value s lv
        = Except.error (TError.typeTransformerFailed "Cannot convert literal to JSON iterator"))
    ∧ (∀ b, lv = Literal.scalar (Scalar.blob b) →
        ∀ content, s.files.lookup b.uri = some content →
          JSONIteratorTransformer.to_python_value s lv
            = Except.ok { remaining := content, closed := false }) := by
  constructor
  · intro hshape
    cases lv with
    | scalar sc =>
      cases sc with
      | primitive p => rfl
      | blob b => simp [Literal.holdsScalarBlob] at hshape
    | collection vs => rfl
    | map m => rfl
  · intro b hb content hc
    subst hb
    simp [JSONIteratorTransformer.to_python_value, hc]

/-- C5 witness. -/
theorem to_python_value_shape_wit :
    JSONIteratorTransformer.to_python_value
        { files := [("u", [JSON.int 1])], counter := 1 } (Literal.collection [])
      = Except.error (TError.typeTransformerFailed "Cannot convert literal to JSON iterator")
    ∧ JSONIteratorTransformer.to_python_value
        { files := [("u", [JSON.int 1])], counter := 1 }
        (Literal.scalar (Scalar.blob
          { metadata := { type := { format := "JSONL",
                                    dimensionality := BlobDimensionality.SINGLE } },
            uri := "u" }))
      = Except.ok { remaining := [JSON.int 1], closed := false } :=
  ⟨(to_python_value_shape { files := [("u", [JSON.int 1])], counter := 1 }
      (Literal.collection [])).1 rfl,
   (to_python_value_shape { files := [("u", [JSON.int 1])], counter := 1 }
      (Literal.scalar (Scalar.blob
        { metadata := { type := { format := "JSONL",
                                  dimensionality := BlobDimensionality.SINGLE } },
          uri := "u" }))).2 _ rfl [JSON.int 1] rfl⟩

/-- C6: registering a transformer for an already registered exact host
type key replaces the previous entry: every subsequent exact resolve of
that key returns the new transformer, and exactly one entry owns the
key afterwards.  (`TypeEngine` is modelled from the spec, its module
not being among the sources.) -/
theorem register_replaces (r : TypeEngine.Registry) (key : PyType) (t1 t2 : Nat) :
    TypeEngine.resolveExact (TypeEngine.register (TypeEngine.register r key t1) key t2) key
      = some t2
    ∧ (TypeEngine.register (TypeEngine.register r key t1) key t2).entries.countP
        (fun e => e.1 == key) = 1 := by
  constructor
  · simp [TypeEngine.resolveExact, TypeEngine.register, List.lookup]
  · have hfil : ∀ l : List (PyType × Nat),
        (l.filter (fun e => e.1 ≠ key)).countP (fun e => e.1 == key) = 0 := by
      intro l
      rw [List.countP_eq_zero]
      intro a ha
      have hmem := List.mem_filter.mp ha
      simpa using of_decide_eq_true hmem.2
    simp [TypeEngine.register, List.countP_cons, hfil]

/-- C7: every literal produced by a successful encode references the
blob payload by URI only: it is a scalar blob literal carrying the
freshly minted URI and the JSONL metadata, fully determined by the
store's counter and thus embedding no payload values. -/
theorem to_literal_blob_reference (s : RemoteStore) (v : List JSON) (h : v ≠ []) :
    (JSONIteratorTransformer.to_literal s v).2
      = Except.ok (Literal.scalar (Scalar.blob
          { metadata := { type := { format := "JSONL",
                                    dimensionality := BlobDimensionality.SINGLE } },
            uri := newRemoteUri s.counter })) := by
  have hne : v.isEmpty = false := by
    cases v with
    | nil => exact absurd rfl h
    | cons x xs => rfl
  simp [JSONIteratorTransformer.to_literal, newRemoteFile, hne,
    JSONIteratorTransformer.JSON_ITERATOR_FORMAT]

/-- C7 witness. -/
theorem to_literal_blob_reference_wit :
    (JSONIteratorTransformer.to_literal { files := [], counter := 0 } [JSON.null]).2
      = Except.ok (Literal.scalar (Scalar.blob
          { metadata := { type := { format := "JSONL",
                                    dimensionality := BlobDimensionality.SINGLE } },
            uri := newRemoteUri 0 })) :=
  to_literal_blob_reference { files := [], counter := 0 } [JSON.null] (by simp)

/-- C9: encoding an empty iterator is not atomic with respect to
storage: `to_literal` on an empty input fails with the empty-stream
error, yet the post state already holds the freshly created (empty)
remote file, and the URI counter has advanced — the write is not
rolled back. -/
theorem to_literal_empty_not_atomic (s : RemoteStore) :
    (JSONIteratorTransformer.to_literal s []).2
      = Except.error (TError.valueError "The iterator is empty.")
    ∧ ((JSONIteratorTransformer.to_literal s []).1).files.lookup (newRemoteUri s.counter)
      = some []
    ∧ (JSONIteratorTransformer.to_literal s []).1.counter = s.counter + 1 := by
  refine ⟨rfl, ?_, rfl⟩
  simp [JSONIteratorTransformer.to_literal, newRemoteFile, List.lookup]

/-- C10: the first `next` on an exhausted iterator closes the reader
and signals `StopIteration`; every later `next` keeps signalling
exhaustion (no further values are yielded); and `next` on a
non-exhausted iterator leaves the reader handle untouched, so the
handle is released exactly at exhaustion. -/
theorem jsonIterator_next_exhaustion (it : JSONIterator) (h : it.remaining = []) :
    it.next.2 = none ∧ it.next.1.closed = true
    ∧ (∀ k, ((fun j => (JSONIterator.next j).1)^[k] it).next.2 = none)
    ∧ (∀ j : JSONIterator, j.remaining ≠ [] →
        (JSONIterator.next j).1.closed = j.closed ∧ (JSONIterator.next j).2 ≠ none) := by
  have hnext : ∀ j : JSONIterator, j.remaining = [] →
      ((JSONIterator.next j).1).remaining = [] := by
    intro j hj
    simp [JSONIterator.next, hj]
  have hnone : ∀ j : JSONIterator, j.remaining = [] → (JSONIterator.next j).2 = none := by
    intro j hj
    simp [JSONIterator.next, hj]
  have hstay : ∀ k, ((fun j => (JSONIterator.next j).1)^[k] it).remaining = [] := by
    intro k
    induction k with
    | zero => simpa using h
    | succ k ih =>
      rw [Function.iterate_succ_apply']
      exact hnext _ ih
  refine ⟨by simp [JSONIterator.next, h], by simp [JSONIterator.next, h], ?_, ?_⟩
  · intro k
    exact hnone _ (hstay k)
  · intro j hj
    cases hr : j.remaining with
    | nil => exact absurd hr hj
    | cons x xs => simp [JSONIterator.next, hr]

/-- C10 witness. -/
theorem jsonIterator_next_exhaustion_wit :
    ({ remaining := [], closed := false } : JSONIterator).next.2 = none
    ∧ ({ remaining := [], closed := false } : JSONIterator).next.1.closed = true
    ∧ (∀ k, ((fun j => (JSONIterator.next j).1)^[k]
        ({ remaining := [], closed := false } : JSONIterator)).next.2 = none)
    ∧ (∀ j : JSONIterator, j.remaining ≠ [] →
        (JSONIterator.next j).1.closed = j.closed ∧ (JSONIterator.next j).2 ≠ none) :=
  jsonIterator_next_exhaustion { remaining := [], closed := false } rfl

end Flytekit
